import Mathlib

/-!
Shallow embedding of `gnaf_loader/gnaf_loader.py`, a small ETL glue script with
four click commands: `decompress`, `queue`, `truncate_tables` and `import_data`.
Each command is modelled as the trace of external calls it performs (object
storage, message queue, database), with the collaborators' effects abstracted as
events.  The `etl.cloud` / `etl.database` collaborator modules are not part of
the repository sources; where a claim depends on a collaborator's behaviour the
corresponding definition is modelled from the spec and marked as such.
-/

/-- Posix `os.path.join` restricted to two components, as used by the script
(`os.path.join(temp_dir, ...)`, `os.path.join(destination_folder, ...)`). -/
def pathJoin (a b : String) : String :=
  if b.startsWith "/" then b
  else if a == "" || a.endsWith "/" then a ++ b
  else a ++ "/" ++ b

/-- Posix `os.path.basename`: the portion of the path after the last slash. -/
def basename (p : String) : String :=
  (p.splitOn "/").getLastD ""

/-- A parsed queue message body, i.e. the result of `json.loads(message['Body'])`
with the four fields the script reads: `instruction`, `bucket_name`, `key_name`
and `details.destination_table`. -/
structure Message where
  instruction : String
  bucket_name : String
  key_name : String
  destination_table : String
deriving DecidableEq, Repr

/-- One external call performed by a command.  `db.close_connection` appears in
the source only as a bare attribute reference (no call parentheses), so it never
emits a `closeConnection` event. -/
inductive Event where
  | setConnection
  | disableFK
  | enableFK
  | closeConnection
  | getMessage
  | downloadFile (bucket key localPath : String)
  | importFile (path table : String) (outcome : Bool)
  | removeMessage (m : Message)
  | truncateTable (t : String)
deriving DecidableEq, Repr

def isGet : Event → Bool
  | Event.getMessage => true
  | _ => false

def isDownload : Event → Bool
  | Event.downloadFile _ _ _ => true
  | _ => false

def isBulkLoad : Event → Bool
  | Event.importFile _ _ _ => true
  | _ => false

def isClose : Event → Bool
  | Event.closeConnection => true
  | _ => false

def isRemove : Event → Bool
  | Event.removeMessage _ => true
  | _ => false

/-- The instruction tag `import_data` recognizes (source line
`if instruction == 'import_file':`). -/
def recognizedInstruction : String := "import_file"

/-- Body of one `import_data` loop iteration after the fetch, translated from
the source: if the message's instruction is the recognized tag, download the
object to `os.path.join(temp_dir, os.path.basename(key_name))`, bulk-load that
file into `details.destination_table` (the returned outcome is recorded on the
event; the script discards it), then remove the message; any other instruction
performs no call at all.  `outcome` gives the result the database client's
`import_file` would return for a path/table pair. -/
def processMessage (outcome : String → String → Bool) (tempDir : String) (m : Message) : List Event :=
  if m.instruction = recognizedInstruction then
    [Event.downloadFile m.bucket_name m.key_name (pathJoin tempDir (basename m.key_name)),
     Event.importFile (pathJoin tempDir (basename m.key_name)) m.destination_table
       (outcome (pathJoin tempDir (basename m.key_name)) m.destination_table),
     Event.removeMessage m]
  else []

/-- The `while message is not None` loop of `import_data`, driven by the stream
of successive `queue.get_message()` results (`none` = no message available).
Each fetch emits a `getMessage` event; the loop stops at the first `none`. -/
def messageLoop (outcome : String → String → Bool) (tempDir : String) :
    List (Option Message) → List Event
  | [] => []
  | none :: _ => [Event.getMessage]
  | some m :: rest =>
      Event.getMessage :: (processMessage outcome tempDir m ++ messageLoop outcome tempDir rest)

/-- Trace of the `import_data` command: `set_connection`, then
`disable_foreign_key_constraints`, then the fetch/process loop, then
`enable_foreign_key_constraints`.  The final source statement
`db.close_connection` is a bare attribute reference, not a call, so the trace
ends without a `closeConnection` event. -/
def import_data (outcome : String → String → Bool) (tempDir : String)
    (fetches : List (Option Message)) : List Event :=
  Event.setConnection :: Event.disableFK ::
    (messageLoop outcome tempDir fetches ++ [Event.enableFK])

/-- The hardcoded table list of `truncate_tables`, in source order. -/
def gnafTables : List String :=
  ["public.address",
   "public.address_alias",
   "public.address_alias_type_aut",
   "public.address_default_geocode",
   "public.address_detail",
   "public.address_mesh_block_2011",
   "public.address_mesh_block_2016",
   "public.address_site",
   "public.address_site_geocode",
   "public.address_type_aut",
   "public.flat_type_aut",
   "public.geocode_reliability_aut",
   "public.geocode_type_aut",
   "public.geocoded_level_type_aut",
   "public.level_type_aut",
   "public.locality",
   "public.locality_alias",
   "public.locality_alias_type_aut",
   "public.locality_class_aut",
   "public.locality_neighbour",
   "public.locality_point",
   "public.mb_2011",
   "public.mb_2016",
   "public.mb_match_code_aut",
   "public.primary_secondary",
   "public.ps_join_type_aut",
   "public.state",
   "public.street_class_aut",
   "public.street_locality",
   "public.street_locality_alias",
   "public.street_locality_alias_type_aut",
   "public.street_locality_point",
   "public.street_suffix_aut",
   "public.street_type_aut"]

/-- The `for table in tables: db.truncate_table(table)` loop.  `failsAt t`
models `db.truncate_table(t)` raising; an exception propagates uncaught, so the
loop (and the command) aborts right after the failing call, the failing
truncate having been issued.  Returns the issued truncate events and whether
the loop ran to completion. -/
def runTruncates (failsAt : String → Bool) : List String → List Event × Bool
  | [] => ([], true)
  | t :: ts =>
      match failsAt t with
      | true => ([Event.truncateTable t], false)
      | false =>
          let r := runTruncates failsAt ts
          (Event.truncateTable t :: r.1, r.2)

/-- Trace of the `truncate_tables` command: `set_connection`, then one truncate
per table in `gnafTables` in order (stopping at the first failing one).  The
final source statement `db.close_connection` is a bare attribute reference, not
a call, so no `closeConnection` event is ever emitted. -/
def truncate_tables (failsAt : String → Bool) : List Event × Bool :=
  let r := runTruncates failsAt gnafTables
  (Event.setConnection :: r.1, r.2)

/-- Connection state of the database client, tracked across a command's
events. -/
structure DbState where
  connected : Bool
deriving DecidableEq, Repr

def applyEvent (s : DbState) : Event → DbState
  | Event.setConnection => ⟨true⟩
  | Event.closeConnection => ⟨false⟩
  | _ => s

def runEvents (s : DbState) (es : List Event) : DbState :=
  es.foldl applyEvent s

/-- The fixed file extension of the `decompress` command
(`file_extension = 'psv'` in the source). -/
def fileExtension : String := "psv"

/-- The single storage call the `decompress` function body performs
(`cs.unzip_file(source_bucket, source_file_path, destination_bucket,
destination_key, file_extension)`). -/
structure UnzipCall where
  srcBucket : String
  srcKey : String
  dstBucket : String
  dstKey : String
  ext : String
deriving DecidableEq, Repr

/-- Body of the `decompress` command, translated from the source: the
destination key is `os.path.join(destination_folder, str(uuid.uuid4()))`
(the freshly generated UUID string is a parameter, the script draws it at
random), and the storage client's unzip is invoked with the fixed `psv`
extension. -/
def decompress (srcBucket srcKey dstBucket dstFolder uuidStr : String) : UnzipCall :=
  ⟨srcBucket, srcKey, dstBucket, pathJoin dstFolder uuidStr, fileExtension⟩

/-- Modelled from the spec: `CloudStorage.unzip_file` lives in the
`gnaf_loader.etl.cloud` module, which is not among the repository sources.
Per the spec it unzips the source archive "filtering extracted members to a
fixed file extension": given the archive's member names, exactly those whose
name carries the given extension are extracted. -/
def unzip_file (members : List String) (ext : String) : List String :=
  members.filter (fun n => n.endsWith ("." ++ ext))

/-- The fixed instruction tag of the `queue` command
(`action_type = 'import_file'` in the source). -/
def action_type : String := "import_file"

/-- A message as published by the queue command's distributor. -/
structure QueuedMessage where
  bucket_name : String
  key_name : String
  instruction : String
deriving DecidableEq, Repr

/-- Modelled from the spec: `Distributor.queue_items` lives in the
`gnaf_loader.etl.cloud` module, which is not among the repository sources.
Per the spec it "enumerates matching objects and publishes one message per
object with a fixed instruction tag", each message "containing that object's
bucket and key"; we parametrize by the enumerated object keys. -/
def queue_items (bucketName : String) (objectKeys : List String)
    (action : String) : List QueuedMessage :=
  objectKeys.map (fun k => ⟨bucketName, k, action⟩)

/-- The `queue` command: publishes via
`distributor.queue_items(bucket_name, key_name, queue_name, action_type)`. -/
def queue (bucketName : String) (objectKeys : List String) : List QueuedMessage :=
  queue_items bucketName objectKeys action_type

/-- The click argument names declared on the `decompress` command, in
decorator order. -/
def decompressClickArguments : List String :=
  ["source_bucket", "source_file_name", "destination_bucket", "destination_folder"]

/-- The parameter names of the `decompress` function definition. -/
def decompressFunctionParams : List String :=
  ["source_bucket", "source_file_path", "destination_bucket", "destination_folder"]

/-- Python keyword-argument binding for a signature with only plain positional
parameters, no defaults and no `**kwargs` (the shape of `decompress`): the call
binds iff every supplied keyword names a parameter and every parameter is
supplied. -/
def kwargsBind (params supplied : List String) : Bool :=
  supplied.all (fun k => params.contains k) && params.all (fun p => supplied.contains p)

inductive InvokeResult where
  | typeError
  | ran (call : UnzipCall)
deriving DecidableEq, Repr

/-- A command-line invocation of `decompress`: click calls the callback with
one keyword argument per declared click argument; if Python keyword binding
against the function's parameters fails, a `TypeError` is raised before any
statement of the body runs. -/
def invokeDecompressCli (srcBucket srcFileName dstBucket dstFolder uuidStr : String) :
    InvokeResult :=
  if kwargsBind decompressFunctionParams decompressClickArguments then
    InvokeResult.ran (decompress srcBucket srcFileName dstBucket dstFolder uuidStr)
  else InvokeResult.typeError

/-! ### Helper lemmas -/

theorem runTruncates_all_ok (failsAt : String → Bool) (ts : List String)
    (h : ∀ t ∈ ts, failsAt t = false) :
    runTruncates failsAt ts = (ts.map Event.truncateTable, true) := by
  induction ts with
  | nil => rfl
  | cons t ts ih =>
      have ht : failsAt t = false := h t (List.mem_cons_self t ts)
      simp [runTruncates, ht, ih (fun u hu => h u (List.mem_cons_of_mem t hu))]

theorem runTruncates_countClose (failsAt : String → Bool) (ts : List String) :
    ((runTruncates failsAt ts).1).countP isClose = 0 := by
  induction ts with
  | nil => rfl
  | cons t ts ih =>
      cases hf : failsAt t with
      | true => simp [runTruncates, hf, isClose]
      | false => simp [runTruncates, hf, isClose, List.countP_cons, ih]

theorem runTruncates_runEvents (failsAt : String → Bool) (ts : List String) (s : DbState) :
    runEvents s (runTruncates failsAt ts).1 = s := by
  induction ts generalizing s with
  | nil => rfl
  | cons t ts ih =>
      cases hf : failsAt t with
      | true => simp [runTruncates, hf, runEvents, applyEvent]
      | false =>
          simp only [runTruncates, hf]
          show runEvents (applyEvent s (Event.truncateTable t)) (runTruncates failsAt ts).1 = s
          exact ih s

theorem runTruncates_abort (failsAt : String → Bool) (pre : List String) (t : String)
    (suf : List String) (hpre : ∀ u ∈ pre, failsAt u = false) (ht : failsAt t = true) :
    runTruncates failsAt (pre ++ t :: suf) = ((pre ++ [t]).map Event.truncateTable, false) := by
  induction pre with
  | nil => simp [runTruncates, ht]
  | cons u pre ih =>
      have hu : failsAt u = false := hpre u (List.mem_cons_self u pre)
      simp [runTruncates, hu, ih (fun v hv => hpre v (List.mem_cons_of_mem u hv))]

theorem messageLoop_stops (outcome : String → String → Bool) (tempDir : String)
    (ms : List Message) (post : List (Option Message)) :
    messageLoop outcome tempDir (ms.map some ++ (none :: post)) =
      messageLoop outcome tempDir (ms.map some ++ [none]) := by
  induction ms with
  | nil => rfl
  | cons m ms ih => simp [messageLoop, ih]

theorem processMessage_countGet (outcome : String → String → Bool) (tempDir : String)
    (m : Message) : (processMessage outcome tempDir m).countP isGet = 0 := by
  by_cases h : m.instruction = recognizedInstruction <;> simp [processMessage, h, isGet]

theorem countGet_messageLoop (outcome : String → String → Bool) (tempDir : String)
    (ms : List Message) :
    (messageLoop outcome tempDir (ms.map some ++ [none])).countP isGet = ms.length + 1 := by
  induction ms with
  | nil => rfl
  | cons m ms ih =>
      simp [messageLoop, List.countP_cons, List.countP_append, isGet,
        processMessage_countGet, ih]

/-! ### Claim theorems -/

/-- Claim C2 (amended: the hardcoded list has 34 entries, not 32): the
truncate-tables command issues exactly one truncate per table of its fixed
hardcoded list, in the listed order. -/
theorem truncate_tables_one_per_table_in_order :
    (truncate_tables (fun _ => false)).1 =
      Event.setConnection :: gnafTables.map Event.truncateTable ∧
    gnafTables.length = 34 := by
  constructor
  · show Event.setConnection :: (runTruncates (fun _ => false) gnafTables).1 = _
    rw [runTruncates_all_ok (fun _ => false) gnafTables (fun _ _ => rfl)]
  · rfl

/-- Claim C2, counterexample to the claim as stated: the fixed table list of
`truncate_tables` has 34 entries, so it is not a sequence of exactly 32 fully
qualified table names. -/
theorem gnafTables_not_32 : gnafTables.length = 34 ∧ gnafTables.length ≠ 32 := by
  decide

/-- Claim C3: the `import_data` message loop stops at the first fetch that
returns no message — the trace is unaffected by whatever the fetch stream holds
after the first `none`, and the number of fetch calls is one more than the
number of messages served before the first `none`. -/
theorem import_data_stops_on_empty_fetch (outcome : String → String → Bool)
    (tempDir : String) (ms : List Message) (post : List (Option Message)) :
    import_data outcome tempDir (ms.map some ++ (none :: post)) =
      import_data outcome tempDir (ms.map some ++ [none]) ∧
    (import_data outcome tempDir (ms.map some ++ [none])).countP isGet = ms.length + 1 := by
  constructor
  · unfold import_data
    rw [messageLoop_stops]
  · unfold import_data
    simp [List.countP_cons, List.countP_append, isGet, countGet_messageLoop]

/-- Claim C5, evaluated at a failing input (an `import_data` run whose first
fetch already returns no message): the command's trace ends with the
foreign-key re-enable and contains no `closeConnection` call, because the final
source statement `db.close_connection` references the method without invoking
it. -/
theorem import_data_connection_not_closed :
    import_data (fun _ _ => true) "tmp" [none] =
      [Event.setConnection, Event.disableFK, Event.getMessage, Event.enableFK] ∧
    (import_data (fun _ _ => true) "tmp" [none]).countP isClose = 0 := by
  constructor <;> rfl

/-- Claim C6: in `truncate_tables` the final close-connection step is a bare
method reference, never a call — no run of the command ever emits a
`closeConnection` event, and running the whole trace from a disconnected state
ends with the connection still open. -/
theorem truncate_tables_close_never_invoked (failsAt : String → Bool) :
    ((truncate_tables failsAt).1).countP isClose = 0 ∧
    runEvents ⟨false⟩ (truncate_tables failsAt).1 = ⟨true⟩ := by
  constructor
  · show (Event.setConnection :: (runTruncates failsAt gnafTables).1).countP isClose = 0
    simp [List.countP_cons, isClose, runTruncates_countClose]
  · show runEvents ⟨true⟩ (runTruncates failsAt gnafTables).1 = ⟨true⟩
    exact runTruncates_runEvents failsAt gnafTables ⟨true⟩

/-- Claim C10: every command-line invocation of `decompress` raises a
`TypeError` before any storage call, because the click argument
`source_file_name` cannot be bound to the function, whose parameter is named
`source_file_path`. -/
theorem decompress_cli_always_type_error (a b c d u : String) :
    invokeDecompressCli a b c d u = InvokeResult.typeError ∧
    kwargsBind decompressFunctionParams decompressClickArguments = false := by
  have h : kwargsBind decompressFunctionParams decompressClickArguments = false := by decide
  refine ⟨?_, h⟩
  simp [invokeDecompressCli, h]

/-- Claim C1: for a fetched message, `remove_message` is called iff the
instruction is `import_file`; when called it comes after the bulk-load call and
is called whatever outcome the bulk load returns; any other instruction emits
no download, no bulk load and no removal, and the loop just moves on to the
next fetch. -/
theorem remove_iff_recognized_instruction (outcome : String → String → Bool)
    (tempDir : String) (m : Message) (rest : List (Option Message)) :
    (Event.removeMessage m ∈ processMessage outcome tempDir m ↔
      m.instruction = recognizedInstruction) ∧
    (m.instruction = recognizedInstruction →
      processMessage outcome tempDir m =
        [Event.downloadFile m.bucket_name m.key_name (pathJoin tempDir (basename m.key_name)),
         Event.importFile (pathJoin tempDir (basename m.key_name)) m.destination_table
           (outcome (pathJoin tempDir (basename m.key_name)) m.destination_table),
         Event.removeMessage m]) ∧
    (m.instruction ≠ recognizedInstruction →
      processMessage outcome tempDir m = [] ∧
      messageLoop outcome tempDir (some m :: rest) =
        Event.getMessage :: messageLoop outcome tempDir rest) := by
  by_cases h : m.instruction = recognizedInstruction
  · exact ⟨by simp [processMessage, h], fun _ => by simp [processMessage, h],
      fun hc => absurd h hc⟩
  · exact ⟨by simp [processMessage, h], fun hc => absurd hc h,
      fun _ => ⟨by simp [processMessage, h], by simp [messageLoop, processMessage, h]⟩⟩

def msgImport : Message := ⟨"import_file", "b", "k1", "t1"⟩

def msgNoop : Message := ⟨"noop", "b", "k2", "t2"⟩

/-- Witness for C1: both hypotheses are satisfiable — a message tagged
`import_file` yields the download/bulk-load/remove block, a `noop` message
yields no call at all. -/
theorem remove_iff_recognized_instruction_witness :
    processMessage (fun _ _ => true) "tmp" msgImport =
      [Event.downloadFile msgImport.bucket_name msgImport.key_name
         (pathJoin "tmp" (basename msgImport.key_name)),
       Event.importFile (pathJoin "tmp" (basename msgImport.key_name))
         msgImport.destination_table
         ((fun _ _ => true) (pathJoin "tmp" (basename msgImport.key_name))
            msgImport.destination_table),
       Event.removeMessage msgImport] ∧
    processMessage (fun _ _ => true) "tmp" msgNoop = [] :=
  ⟨(remove_iff_recognized_instruction (fun _ _ => true) "tmp" msgImport []).2.1 rfl,
   ((remove_iff_recognized_instruction (fun _ _ => true) "tmp" msgNoop []).2.2
      (by decide)).1⟩

theorem countDownload_messageLoop (outcome : String → String → Bool) (tempDir : String)
    (ms : List Message) :
    (messageLoop outcome tempDir (ms.map some ++ [none])).countP isDownload =
      ms.countP (fun x => x.instruction == recognizedInstruction) := by
  induction ms with
  | nil => rfl
  | cons m ms ih =>
      by_cases h : m.instruction = recognizedInstruction <;>
        simp [messageLoop, List.countP_cons, List.countP_append, isDownload,
          processMessage, h, ih, beq_iff_eq]

theorem countBulkLoad_messageLoop (outcome : String → String → Bool) (tempDir : String)
    (ms : List Message) :
    (messageLoop outcome tempDir (ms.map some ++ [none])).countP isBulkLoad =
      ms.countP (fun x => x.instruction == recognizedInstruction) := by
  induction ms with
  | nil => rfl
  | cons m ms ih =>
      by_cases h : m.instruction = recognizedInstruction <;>
        simp [messageLoop, List.countP_cons, List.countP_append, isBulkLoad,
          processMessage, h, ih, beq_iff_eq]

/-- Claim C4: a fetched message with the recognized tag triggers exactly one
download — to `temp_dir` joined with `basename(key_name)` of the message's
bucket/key — followed by exactly one bulk load of that file into the message's
`details.destination_table`; over a whole run the number of downloads and of
bulk loads both equal the number of fetched messages carrying the tag. -/
theorem one_download_one_bulk_load (outcome : String → String → Bool) (tempDir : String)
    (ms : List Message) (m : Message) (h : m.instruction = recognizedInstruction) :
    processMessage outcome tempDir m =
      [Event.downloadFile m.bucket_name m.key_name (pathJoin tempDir (basename m.key_name)),
       Event.importFile (pathJoin tempDir (basename m.key_name)) m.destination_table
         (outcome (pathJoin tempDir (basename m.key_name)) m.destination_table),
       Event.removeMessage m] ∧
    (import_data outcome tempDir (ms.map some ++ [none])).countP isDownload =
      ms.countP (fun x => x.instruction == recognizedInstruction) ∧
    (import_data outcome tempDir (ms.map some ++ [none])).countP isBulkLoad =
      ms.countP (fun x => x.instruction == recognizedInstruction) := by
  refine ⟨by simp [processMessage, h], ?_, ?_⟩ <;>
    simp [import_data, List.countP_cons, List.countP_append, isDownload, isBulkLoad,
      countDownload_messageLoop, countBulkLoad_messageLoop]

/-- Witness for C4 at a concrete queue of two messages, one recognized and one
not. -/
theorem one_download_one_bulk_load_witness :
    processMessage (fun _ _ => true) "tmp" msgImport =
      [Event.downloadFile msgImport.bucket_name msgImport.key_name
         (pathJoin "tmp" (basename msgImport.key_name)),
       Event.importFile (pathJoin "tmp" (basename msgImport.key_name))
         msgImport.destination_table
         ((fun _ _ => true) (pathJoin "tmp" (basename msgImport.key_name))
            msgImport.destination_table),
       Event.removeMessage msgImport] ∧
    (import_data (fun _ _ => true) "tmp"
        ([msgImport, msgNoop].map some ++ [none])).countP isDownload =
      [msgImport, msgNoop].countP (fun x => x.instruction == recognizedInstruction) ∧
    (import_data (fun _ _ => true) "tmp"
        ([msgImport, msgNoop].map some ++ [none])).countP isBulkLoad =
      [msgImport, msgNoop].countP (fun x => x.instruction == recognizedInstruction) :=
  one_download_one_bulk_load (fun _ _ => true) "tmp" [msgImport, msgNoop] msgImport rfl

/-- Claim C7: if the truncate of table `t` raises — every earlier table in the
list having been truncated without error — the command aborts right there:
the issued truncates are exactly those of the tables before `t`, then `t`
itself, and none after. -/
theorem truncate_tables_aborts_at_failure (failsAt : String → Bool)
    (pre : List String) (t : String) (suf : List String)
    (hsplit : gnafTables = pre ++ t :: suf)
    (hpre : ∀ u ∈ pre, failsAt u = false) (ht : failsAt t = true) :
    (truncate_tables failsAt).1 =
      Event.setConnection :: (pre ++ [t]).map Event.truncateTable ∧
    (truncate_tables failsAt).2 = false := by
  have h := runTruncates_abort failsAt pre t suf hpre ht
  constructor
  · show Event.setConnection :: (runTruncates failsAt gnafTables).1 = _
    rw [hsplit, h]
  · show (runTruncates failsAt gnafTables).2 = false
    rw [hsplit, h]

def localityFails : String → Bool := fun s => s == "public.locality"

/-- Witness for C7: a run where only `public.locality` (the 16th table) fails
truncates the 15 tables before it plus `public.locality` itself and no more. -/
theorem truncate_tables_aborts_at_failure_witness :
    (truncate_tables localityFails).1 =
      Event.setConnection ::
        (gnafTables.take 15 ++ ["public.locality"]).map Event.truncateTable ∧
    (truncate_tables localityFails).2 = false :=
  truncate_tables_aborts_at_failure localityFails (gnafTables.take 15)
    "public.locality" (gnafTables.drop 16) (by decide) (by decide) (by decide)

/-- Claim C8: `decompress` invokes the storage unzip with destination key
`destination_folder` joined with the freshly generated UUID string and the
fixed extension `psv`, and (per the spec-modelled `unzip_file`) exactly the
archive members carrying that extension are extracted, none others. -/
theorem decompress_unzips_psv_members (srcBucket srcKey dstBucket dstFolder uuidStr : String)
    (members : List String) :
    decompress srcBucket srcKey dstBucket dstFolder uuidStr =
      ⟨srcBucket, srcKey, dstBucket, pathJoin dstFolder uuidStr, "psv"⟩ ∧
    ∀ n, n ∈ unzip_file members fileExtension ↔
      n ∈ members ∧ n.endsWith ".psv" = true := by
  have hext : ("." ++ fileExtension : String) = ".psv" := rfl
  exact ⟨rfl, fun n => by simp [unzip_file, List.mem_filter, hext]⟩

/-- Claim C9: the queue command publishes exactly one message per enumerated
object, each carrying that object's bucket and key, tagged with the fixed
instruction `import_file` — the very tag `import_data` recognizes. -/
theorem queue_one_message_per_object (bucketName : String) (objectKeys : List String) :
    queue bucketName objectKeys =
      objectKeys.map (fun k => ⟨bucketName, k, recognizedInstruction⟩) ∧
    action_type = recognizedInstruction ∧
    (queue bucketName objectKeys).length = objectKeys.length := by
  refine ⟨rfl, rfl, ?_⟩
  simp [queue, queue_items]
